import Mathlib

/-!
Verification of the STM32 USART bootloader flashing client
(`src/js/protocols/stm32.js`) against its specification.

The development shallowly embeds the protocol-relevant parts of the source:

* JavaScript number coercions (`>>`, `&`, `~`, `^`, `Math.ceil` of a
  division, and the truncation performed when a value is stored into the
  outgoing `Uint8Array`) are modelled on `Int`/`Nat` with explicit
  `% 2^32` / `% 256` arithmetic.
* The callback-driven session driver `upload_procedure` is modelled as a
  deterministic step machine: each pending read callback of the source is a
  program-counter value, and `upload_procedure_step` consumes the bytes
  delivered to that callback, returning the successor state together with
  the list of frames handed to `send` during that step.
* The 2000 ms watchdog of `initialize` and the `alive` flag set by `send`
  are modelled as a small separate transition system, since their ticks
  interleave with the serial exchanges.
-/

/-! ## JavaScript number semantics -/

/-- JavaScript `ToUint32`: the 32-bit pattern of an integral Number. -/
def toUint32 (x : Int) : Nat := (x % 4294967296).toNat

/-- JavaScript `ToInt32`: the signed value of the 32-bit pattern. -/
def toInt32 (x : Int) : Int :=
  let u : Int := x % 4294967296
  if u < 2147483648 then u else u - 4294967296

/-- JavaScript signed right shift `x >> k` (`ToInt32`, then arithmetic
shift, which on integers is flooring division by `2 ^ k`). -/
def jsShr (x : Int) (k : Nat) : Int := toInt32 x / (2 ^ k : Int)

/-- JavaScript `x & 0xFF` on an integral Number: the low byte of the
32-bit pattern, i.e. `x` modulo 256 (Lean's `Int.emod` is non-negative
here, matching the JavaScript result). -/
def jsAnd255 (x : Int) : Int := x % 256

/-- JavaScript bitwise complement `~x`. -/
def jsNot (x : Int) : Int := -(toInt32 x + 1)

/-- JavaScript `x ^ y`: xor of the two 32-bit patterns, read back as a
signed 32-bit value. -/
def jsXor (x y : Int) : Int := toInt32 ((toUint32 x ^^^ toUint32 y : Nat) : Int)

/-- Model of `Math.ceil(a / b)` for integral `a` and positive integral `b` (the
magnitudes involved are far below 2^53, so the double-precision division
in the source is exact up to the ceiling). -/
def jsCeilDiv (a b : Int) : Int := -((-a) / b)

/-- The bytes actually placed on the wire: `send` copies the array into a
`Uint8Array`, and storing an integral Number there takes it modulo 256. -/
def transmit (frame : List Int) : List Nat := frame.map (fun x => (x % 256).toNat)

/-! ## Data model (§3 of the spec) -/

/-- A segment of the pre-parsed firmware image. -/
structure Segment where
  address : Nat
  bytes : Nat
  data : List Nat
deriving DecidableEq

/-- The pre-parsed firmware image (`hex` in the source). -/
structure Image where
  bytes_total : Nat
  data : List Segment
deriving DecidableEq

/-- Status bytes (`this.status` in the source). -/
def statusACK : Nat := 0x79

/-- NACK status byte. -/
def statusNACK : Nat := 0x1F

/-! ## verify_flash (stm32.js lines 440-451) -/

/-- Function `verify_flash(firstArray, secondArray)`: walks the indices of
`firstArray` and fails on the first position where `secondArray` differs
(an out-of-range read of `secondArray` yields `undefined` in JavaScript,
which compares unequal to any byte; `secondArray[i]?` models that). -/
def verify_flash (firstArray secondArray : List Nat) : Bool :=
  (List.range firstArray.length).all fun i => secondArray[i]? == some (firstArray.getD i 0)

/-! ## Chip registry and verify_chip_signature (stm32.js lines 362-435) -/

/-- Verdict of `verify_chip_signature`, distinguishing the three exits of
lines 423-434: success, the "bigger then flash" log (ImageTooLarge), and
the "Chip NOT recognized" log (unknown id, or known id whose switch case
sets no geometry). -/
inductive ChipVerdict
  | ok
  | imageTooLarge
  | chipNotRecognized
deriving DecidableEq

/-- The flash geometry assigned by the `switch` in
`verify_chip_signature`: only the cases 0x410, 0x414 and 0x422 assign
`available_flash_size`/`page_size`; every other case (0x412, 0x418,
0x420, 0x428, 0x430, 0x416, 0x436, 0x427, 0x411, 0x440, 0x444, 0x413,
0x419, 0x432, and unknown values) only logs and leaves them unchanged. -/
def chipGeometry (signature : Nat) : Option (Nat × Nat) :=
  if signature == 0x410 then some (131072, 1024)
  else if signature == 0x414 then some (0x40000, 2048)
  else if signature == 0x422 then some (0x40000, 2048)
  else none

/-- Function `verify_chip_signature(signature)`: resolves the geometry (keeping the
previous `this.available_flash_size`/`this.page_size` when the switch
assigns nothing), then requires a strictly positive flash size and
`hex.bytes_total < available_flash_size`.  Returns the updated geometry
together with the verdict. -/
def verify_chip_signature (signature bytes_total flash0 page0 : Nat) :
    Nat × Nat × ChipVerdict :=
  let g := (chipGeometry signature).getD (flash0, page0)
  if 0 < g.1 then
    if bytes_total < g.1 then (g.1, g.2, ChipVerdict.ok)
    else (g.1, g.2, ChipVerdict.imageTooLarge)
  else (g.1, g.2, ChipVerdict.chipNotRecognized)

/-! ## Frame builders -/

/-- The address frame of phases 5, 6 and 7 (stm32.js lines 675-678,
755-758, 834-838): the four unmasked shift results and their xor, pushed
as-is; truncation to bytes happens only in `transmit`. -/
def addressFrame (address : Int) : List Int :=
  let a0 := jsShr address 24
  let a1 := jsShr address 16
  let a2 := jsShr address 8
  let a3 := address
  let addressChecksum := jsXor (jsXor (jsXor a0 a1) a2) a3
  [a0, a1, a2, a3, addressChecksum]

/-- The write data frame of phase 5 (stm32.js lines 680-690).

`Array.from(bytesToWrite + 2)` is `Array.from` applied to a Number: the
argument is neither iterable nor array-like, so the result is the EMPTY
array, not an array of length `bytesToWrite + 2`.  The subsequent index
assignments therefore append: after `arrayOut[0] = bytesToWrite - 1` and
the payload loop the array has length `bytesToWrite + 1`, and the final
`arrayOut[arrayOut.length - 1] = checksum` overwrites the LAST PAYLOAD
BYTE instead of appending the checksum. -/
def buildDataFrame (chunk : List Nat) : List Int :=
  let arrayOut : List Int := ((chunk.length : Int) - 1) :: chunk.map (fun (b : Nat) => (b : Int))
  let checksum : Int :=
    (chunk.map (fun (b : Nat) => (b : Int))).foldl jsXor ((chunk.length : Int) - 1)
  arrayOut.set (arrayOut.length - 1) checksum

/-- The number of pages a partial erase covers (stm32.js lines 563-564 and
629-630): `Math.ceil(maxAddress / page_size)` with
`maxAddress = last.address + last.bytes - 0x8000000`. -/
def erasePagesOf (hex : Image) (page_size : Nat) : Int :=
  let lastSeg := hex.data.getD (hex.data.length - 1) ⟨0, 0, []⟩
  let maxAddress : Int := (lastSeg.address : Int) + (lastSeg.bytes : Int) - 0x8000000
  jsCeilDiv maxAddress (page_size : Int)

/-- The extended-erase page-list frame (stm32.js lines 563-588): two
header bytes `(N-1) >> 8`, `(N-1) & 0xFF`, two bytes `i >> 8`, `i & 0xFF`
per page, and a trailing checksum xor-accumulated from 0 over every
pushed byte. -/
def extendedEraseFrame (hex : Image) (page_size : Nat) : List Int :=
  let erasePagesN := erasePagesOf hex page_size
  let hdr : List Int := [jsShr (erasePagesN - 1) 8, jsAnd255 (erasePagesN - 1)]
  let pageBytes : List Int :=
    (List.range erasePagesN.toNat).flatMap fun i => [jsShr (i : Int) 8, jsAnd255 (i : Int)]
  let body := hdr ++ pageBytes
  body ++ [body.foldl jsXor 0]

/-- The classic-erase page-list frame (stm32.js lines 628-641): one header
byte `N-1`, one byte per page, and a trailing checksum initialised to
`N-1` and xor-accumulated over the page bytes. -/
def classicEraseFrame (hex : Image) (page_size : Nat) : List Int :=
  let erasePagesN := erasePagesOf hex page_size
  let body : List Int :=
    (erasePagesN - 1) :: (List.range erasePagesN.toNat).map (fun (i : Nat) => (i : Int))
  let checksum :=
    ((List.range erasePagesN.toNat).map (fun (i : Nat) => (i : Int))).foldl jsXor (erasePagesN - 1)
  body ++ [checksum]

/-! Spec-side frame shapes (used to state the refinement claims about the
partial-erase list frames; these two definitions follow the words of the
specification, not the source). -/

/-- Spec §4.2 extended-erase list frame body: two big-endian bytes of
`pages-1`, then two big-endian bytes per page index 0 … pages-1 in
ascending order. -/
def specExtBody (pages : Nat) : List Nat :=
  [(pages - 1) / 256, (pages - 1) % 256] ++
    (List.range pages).flatMap fun i => [i / 256, i % 256]

/-- Spec §4.2 extended-erase list frame: the body followed by one
checksum byte equal to the xor of every preceding byte of the frame. -/
def specExtendedListFrame (pages : Nat) : List Nat :=
  specExtBody pages ++ [(specExtBody pages).foldl Nat.xor 0]

/-- Spec §4.2 classic-erase list frame body: one byte `pages-1`, then one
byte per page index 0 … pages-1 in ascending order. -/
def specClassicBody (pages : Nat) : List Nat :=
  (pages - 1) :: List.range pages

/-- Spec §4.2 classic-erase list frame: the body followed by one checksum
byte equal to the xor of every preceding byte of the frame. -/
def specClassicListFrame (pages : Nat) : List Nat :=
  specClassicBody pages ++ [(specClassicBody pages).foldl Nat.xor 0]

/-! ## The session driver as a step machine (stm32.js lines 454-861)

Each constructor of `PC` is one pending read callback of the source: the
machine is at `PC.x` when the source has issued the corresponding `send`
(or `retrieve`) and is waiting for the requested bytes.
`upload_procedure_step` consumes the delivered bytes and returns the new
state together with the frames handed to `send` during the step.  The
`bytesToRead` field mirrors `this.bytesToRead`: how many response bytes
the newly registered callback awaits. -/

/-- Program counter: the pending read callback the session is blocked on.
`p1` is the auto-baud probe reply, `p2_ack`/`p2_block` the two reads of
GET, `p3_ack`/`p3_block` the two reads of GET ID, `p4_cmd`/`p4_list` the
two ACKs of the erase phase, `p5_cmd`/`p5_addr`/`p5_data` the three ACKs
of a write chunk, `p6_cmd`/`p6_addr`/`p6_count`/`p6_data` the three ACKs
plus data read of a verify chunk, `p7_cmd`/`p7_addr` the two ACKs of GO,
and `done` is phase 99. -/
inductive PC
  | p1
  | p2_ack
  | p2_block
  | p3_ack
  | p3_block
  | p4_cmd
  | p4_list
  | p5_cmd
  | p5_addr
  | p5_data
  | p6_cmd
  | p6_addr
  | p6_count
  | p6_data
  | p7_cmd
  | p7_addr
  | done
deriving DecidableEq

/-- Which terminal log message drove the session to phase 99. -/
inductive Failure
  | contactFailed
  | bootloaderUnresponsive
  | wrongResponse
  | chipRejected
  | verifyFail
deriving DecidableEq

/-- The mutable session state of `STM32_protocol` plus the locals of
`upload_procedure` that survive across callbacks (`sendCounter`,
`flashing_block`, `bytes_flashed`, `address`, `readingBlock`,
`bytesVerified`, and the chunk size captured by the nested closures). -/
structure SessionState where
  pc : PC
  sendCounter : Nat
  useExtendedErase : Bool
  available_flash_size : Nat
  page_size : Nat
  hex : Image
  erase_chip : Bool
  bytesToRead : Nat
  verify_hex : List (List Nat)
  flashing_block : Nat
  bytes_flashed : Nat
  address : Nat
  readingBlock : Nat
  bytesVerified : Nat
  chunkSize : Nat
  failure : Option Failure
deriving DecidableEq

/-- The state right after `connect`/`initialize` (stm32.js lines 10-52 and
241-279): phase 1 pending, counters zeroed, no geometry resolved yet. -/
def initState (hex : Image) (erase_chip : Bool) : SessionState :=
  { pc := PC.p1, sendCounter := 0, useExtendedErase := false,
    available_flash_size := 0, page_size := 0, hex := hex,
    erase_chip := erase_chip, bytesToRead := 0, verify_hex := [],
    flashing_block := 0, bytes_flashed := 0, address := 0,
    readingBlock := 0, bytesVerified := 0, chunkSize := 0, failure := none }

/-- Terminal transition used by `verify_response` (stm32.js lines
344-358): a non-ACK leading byte drives the session to phase 99. -/
def failStep (s : SessionState) : SessionState × List (List Int) :=
  ({ s with pc := PC.done, failure := some Failure.wrongResponse }, [])

/-- The final comparison of phase 6 and the dispatch of phase 7
(stm32.js lines 795-818 and 827-845): compare every segment against the
verification buffer; on success send the GO command frame, otherwise
phase 99. -/
def finalVerify (s : SessionState) : SessionState × List (List Int) :=
  let pass := (List.range s.hex.data.length).all fun i =>
    verify_flash (s.hex.data.getD i ⟨0, 0, []⟩).data (s.verify_hex.getD i [])
  if pass then
    ({ s with pc := PC.p7_cmd, bytesToRead := 1 }, [[0x21, 0xDE]])
  else
    ({ s with pc := PC.done, failure := some Failure.verifyFail }, [])

/-- The `reading()` closure of phase 6 (stm32.js lines 747-824): if the
current block has unread bytes, start a read-memory exchange for the next
chunk of up to 256 bytes; otherwise advance to the next block or run the
final comparison.  Block advancing is a tail recursion; the fuel is
always called with more than `hex.data.length` so it never runs out. -/
def readLoop : Nat → SessionState → SessionState × List (List Int)
  | 0, s => (s, [])
  | fuel + 1, s =>
    match s.hex.data[s.readingBlock]? with
    | none => finalVerify s
    | some seg =>
      if s.bytesVerified < seg.bytes then
        let n := if s.bytesVerified + 256 ≤ seg.bytes then 256 else seg.bytes - s.bytesVerified
        ({ s with pc := PC.p6_cmd, bytesToRead := 1, chunkSize := n }, [[0x11, 0xEE]])
      else if s.readingBlock < s.hex.data.length - 1 then
        readLoop fuel { s with
          readingBlock := s.readingBlock + 1
          address := (s.hex.data.getD (s.readingBlock + 1) ⟨0, 0, []⟩).address
          bytesVerified := 0 }
      else finalVerify s

/-- Entry into phase 6 (stm32.js lines 731-824): reset the block cursor,
push one empty vector per segment onto `verify_hex`, and start
`reading()`. -/
def phase6Entry (s : SessionState) : SessionState × List (List Int) :=
  readLoop (s.hex.data.length + 1)
    { s with
      readingBlock := 0
      address := (s.hex.data.getD 0 ⟨0, 0, []⟩).address
      bytesVerified := 0
      verify_hex := List.replicate s.hex.data.length [] }

/-- The `write()` closure of phase 5 (stm32.js lines 666-728): if the
current block has unwritten bytes, start a write-memory exchange for the
next chunk of up to 256 bytes; otherwise advance to the next block or
enter phase 6. -/
def writeLoop : Nat → SessionState → SessionState × List (List Int)
  | 0, s => (s, [])
  | fuel + 1, s =>
    match s.hex.data[s.flashing_block]? with
    | none => phase6Entry s
    | some seg =>
      if s.bytes_flashed < seg.bytes then
        let n := if s.bytes_flashed + 256 ≤ seg.bytes then 256 else seg.bytes - s.bytes_flashed
        ({ s with pc := PC.p5_cmd, bytesToRead := 1, chunkSize := n }, [[0x31, 0xCE]])
      else if s.flashing_block < s.hex.data.length - 1 then
        writeLoop fuel { s with
          flashing_block := s.flashing_block + 1
          address := (s.hex.data.getD (s.flashing_block + 1) ⟨0, 0, []⟩).address
          bytes_flashed := 0 }
      else phase6Entry s

/-- Entry into phase 5 (stm32.js lines 655-728). -/
def phase5Entry (s : SessionState) : SessionState × List (List Int) :=
  writeLoop (s.hex.data.length + 1)
    { s with
      flashing_block := 0
      address := (s.hex.data.getD 0 ⟨0, 0, []⟩).address
      bytes_flashed := 0 }

/-- One response-driven step of `upload_procedure`: the bytes `data` are
delivered to the pending callback named by `s.pc`. -/
def upload_procedure_step (s : SessionState) (data : List Nat) :
    SessionState × List (List Int) :=
  match s.pc with
  | PC.p1 =>
    -- lines 464-479: accept 0x7F, ACK or NACK, then send GET
    if data.getD 0 0 == 0x7F || data.getD 0 0 == statusACK || data.getD 0 0 == statusNACK then
      ({ s with pc := PC.p2_ack, bytesToRead := 2 }, [[0x00, 0xFF]])
    else
      ({ s with pc := PC.done, failure := some Failure.contactFailed }, [])
  | PC.p2_ack =>
    -- lines 498-500: verify ACK, then retrieve data[1] + 1 + 1 bytes
    if data[0]? == some statusACK then
      ({ s with pc := PC.p2_block, bytesToRead := data.getD 1 0 + 1 + 1 }, [])
    else failStep s
  | PC.p2_block =>
    -- lines 500-507: record data[7] === 0x44, then send GET ID
    ({ s with
      useExtendedErase := data[7]? == some 0x44
      pc := PC.p3_ack
      bytesToRead := 2 }, [[0x02, 0xFD]])
  | PC.p3_ack =>
    -- lines 514-516
    if data[0]? == some statusACK then
      ({ s with pc := PC.p3_block, bytesToRead := data.getD 1 0 + 1 + 1 }, [])
    else failStep s
  | PC.p3_block =>
    -- lines 516-529 and the phase-4 dispatch, lines 532-626
    let signature := (data.getD 0 0) <<< 8 ||| data.getD 1 0
    let v := verify_chip_signature signature s.hex.bytes_total
      s.available_flash_size s.page_size
    let s1 := { s with available_flash_size := v.1, page_size := v.2.1 }
    if v.2.2 == ChipVerdict.ok then
      if s1.useExtendedErase then
        ({ s1 with pc := PC.p4_cmd, bytesToRead := 1 }, [[0x44, 0xBB]])
      else
        ({ s1 with pc := PC.p4_cmd, bytesToRead := 1 }, [[0x43, 0xBC]])
    else
      ({ s1 with pc := PC.done, failure := some Failure.chipRejected }, [])
  | PC.p4_cmd =>
    -- lines 542-551, 558-598, 610-620, 626-651: second erase frame
    if data[0]? == some statusACK then
      if s.useExtendedErase then
        if s.erase_chip then
          ({ s with pc := PC.p4_list, bytesToRead := 1 }, [[0xFF, 0xFF, 0x00]])
        else
          ({ s with pc := PC.p4_list, bytesToRead := 1 },
            [extendedEraseFrame s.hex s.page_size])
      else
        if s.erase_chip then
          ({ s with pc := PC.p4_list, bytesToRead := 1 }, [[0xFF, 0x00]])
        else
          ({ s with pc := PC.p4_list, bytesToRead := 1 },
            [classicEraseFrame s.hex s.page_size])
    else failStep s
  | PC.p4_list =>
    if data[0]? == some statusACK then phase5Entry s else failStep s
  | PC.p5_cmd =>
    -- lines 672-678: address frame from unmasked shifts
    if data[0]? == some statusACK then
      ({ s with pc := PC.p5_addr, bytesToRead := 1 }, [addressFrame (s.address : Int)])
    else failStep s
  | PC.p5_addr =>
    -- lines 679-704: build and send the data frame, advance the cursors
    if data[0]? == some statusACK then
      let seg := s.hex.data.getD s.flashing_block ⟨0, 0, []⟩
      let chunk := (seg.data.drop s.bytes_flashed).take s.chunkSize
      ({ s with
        pc := PC.p5_data
        bytesToRead := 1
        bytes_flashed := s.bytes_flashed + s.chunkSize
        address := s.address + s.chunkSize }, [buildDataFrame chunk])
    else failStep s
  | PC.p5_data =>
    if data[0]? == some statusACK then writeLoop (s.hex.data.length + 1) s
    else failStep s
  | PC.p6_cmd =>
    if data[0]? == some statusACK then
      ({ s with pc := PC.p6_addr, bytesToRead := 1 }, [addressFrame (s.address : Int)])
    else failStep s
  | PC.p6_addr =>
    -- lines 760-762: read-count frame [N-1, ~(N-1) & 0xFF]
    if data[0]? == some statusACK then
      ({ s with pc := PC.p6_count, bytesToRead := 1 },
        [[(s.chunkSize : Int) - 1, jsAnd255 (jsNot ((s.chunkSize : Int) - 1))]])
    else failStep s
  | PC.p6_count =>
    -- lines 763-764: retrieve the chunk bytes (no send)
    if data[0]? == some statusACK then
      ({ s with pc := PC.p6_data, bytesToRead := s.chunkSize }, [])
    else failStep s
  | PC.p6_data =>
    -- lines 764-775: append to the verification buffer, continue reading
    let s1 := { s with
      verify_hex := s.verify_hex.set s.readingBlock
        (s.verify_hex.getD s.readingBlock [] ++ data),
      address := s.address + s.chunkSize,
      bytesVerified := s.bytesVerified + s.chunkSize }
    readLoop (s1.hex.data.length + 1) s1
  | PC.p7_cmd =>
    -- lines 832-838: GO address frame for 0x8000000
    if data[0]? == some statusACK then
      ({ s with pc := PC.p7_addr, bytesToRead := 1 }, [addressFrame 0x8000000])
    else failStep s
  | PC.p7_addr =>
    -- lines 838-845: success; phase 99
    if data[0]? == some statusACK then
      ({ s with pc := PC.done }, [])
    else failStep s
  | PC.done => (s, [])

/-! ## Phase-1 auto-baud ticks (stm32.js lines 462-493)

The 250 ms interval body: it first emits the probe (registering a 1-byte
read), and only then evaluates `sendCounter++ > 3`; on the tick where the
old counter exceeds 3 the interval is removed and phase 99 entered — but
that tick's probe has already been handed to the serial port. -/

/-- One 250 ms tick of the `stm32_initialize_mcu` interval.  The guard on
`s.pc` models the interval's removal when phase 1 is left. -/
def phase1_tick (s : SessionState) : SessionState × List (List Int) :=
  if s.pc == PC.p1 then
    if s.sendCounter > 3 then
      ({ s with
        pc := PC.done
        failure := some Failure.bootloaderUnresponsive
        sendCounter := s.sendCounter + 1
        bytesToRead := 1 }, [[0x7F]])
    else
      ({ s with sendCounter := s.sendCounter + 1, bytesToRead := 1 }, [[0x7F]])
  else (s, [])

/-- Run of `n` consecutive unanswered ticks, collecting every frame sent. -/
def phase1_ticks : Nat → SessionState → SessionState × List (List Int)
  | 0, s => (s, [])
  | n + 1, s =>
    let r1 := phase1_tick s
    let r2 := phase1_ticks n r1.1
    (r2.1, r1.2 ++ r2.2)

/-! ## The watchdog (stm32.js lines 262-276 and 320-339)

`send` sets `this.upload_process_alive = true`; the 2000 ms
`STM32_timeout` interval clears it when it finds it set, and otherwise
removes itself and enters phase 99 with the timed-out message. -/

/-- The watchdog-relevant state: the `alive` flag and whether the
watchdog has already fired (`expired` also stands for the interval having
been removed). -/
structure WatchdogState where
  upload_process_alive : Bool
  expired : Bool
deriving DecidableEq

/-- Events the watchdog state reacts to: a `send` on the port, or one
2000 ms tick of the `STM32_timeout` interval. -/
inductive WdEvent
  | send
  | tick
deriving DecidableEq

/-- Model of `send` (line 322): it unconditionally sets the alive flag. -/
def sendAlive (s : WatchdogState) : WatchdogState :=
  { s with upload_process_alive := true }

/-- One watchdog tick (lines 262-276): clear the flag if it is set,
otherwise remove the interval and enter phase 99. -/
def watchdog_tick (s : WatchdogState) : WatchdogState :=
  if s.expired then s
  else if s.upload_process_alive then { s with upload_process_alive := false }
  else { s with expired := true }

/-- Run a sequence of events. -/
def wdRun (es : List WdEvent) (s : WatchdogState) : WatchdogState :=
  es.foldl (fun s e => match e with
    | WdEvent.send => sendAlive s
    | WdEvent.tick => watchdog_tick s) s

/-- The value of the alive flag observed by each tick that actually runs
(ticks after the interval was removed observe nothing). -/
def wdObs : List WdEvent → WatchdogState → List Bool
  | [], _ => []
  | WdEvent.send :: es, s => wdObs es (sendAlive s)
  | WdEvent.tick :: es, s =>
    if s.expired then wdObs es s
    else s.upload_process_alive :: wdObs es (watchdog_tick s)

/-- Whether a list of tick observations contains two consecutive `false`
entries. -/
def twoConsecutiveFalse : List Bool → Bool
  | a :: b :: t => (!a && !b) || twoConsecutiveFalse (b :: t)
  | _ => false


/-- Position of a program counter in the session's linear progression:
rank 1 is the auto-baud phase, rank 2 the GET exchange (whose block
callback is the single write of `useExtendedErase`), rank 3 everything
from GET ID onwards. -/
def pcRank : PC → Nat
  | PC.p1 => 1
  | PC.p2_ack => 2
  | PC.p2_block => 2
  | _ => 3

/-! ## Claim theorems -/

/-- C9: `verify_flash(first, second)` returns true exactly when `second`
agrees with `first` on every index below `first.length`; extra trailing
bytes of `second` are ignored, and a strictly shorter `second` always
fails. -/
theorem c9_verify_flash_ignores_tail :
    ∀ firstArray secondArray : List Nat,
      (verify_flash firstArray secondArray = true ↔
        ∀ i (h : i < firstArray.length),
          secondArray[i]? = some (firstArray.get ⟨i, h⟩))
      ∧ (secondArray.length < firstArray.length →
          verify_flash firstArray secondArray = false) := by
  intro f s
  have hiff : verify_flash f s = true ↔
      ∀ i (h : i < f.length), s[i]? = some (f.get ⟨i, h⟩) := by
    unfold verify_flash
    rw [List.all_eq_true]
    constructor
    · intro h i hi
      have := h i (List.mem_range.mpr hi)
      rw [beq_iff_eq] at this
      rw [this, List.getD_eq_getElem f 0 hi]
      simp
    · intro h i hi
      have hi' := List.mem_range.mp hi
      rw [beq_iff_eq, h i hi', List.getD_eq_getElem f 0 hi']
      simp
  refine ⟨hiff, fun hlen => ?_⟩
  rw [← Bool.not_eq_true, hiff]
  intro hall
  have := hall s.length hlen
  rw [List.getElem?_eq_none (Nat.le_refl _)] at this
  exact Option.noConfusion this

/-- C9 witness: a shorter second array fails, by the theorem at a
concrete input. -/
theorem c9_witness : verify_flash [1, 2] [1] = false :=
  (c9_verify_flash_ignores_tail [1, 2] [1]).2 (by decide)

/-- C4 (code bug): at segment payload `[0x01, 0x02]` (one chunk, N = 2)
the data frame the source hands to `send` is `[1, 1, 2]` — three bytes —
because `Array.from(bytesToWrite + 2)` is the empty array and the final
checksum store lands on index N, overwriting the last payload byte; the
specified frame `[N-1, payload..., checksum]` would be `[1, 1, 2, 2]`. -/
theorem c4_data_frame_drops_last_payload_byte :
    transmit (buildDataFrame [1, 2]) = [1, 1, 2] ∧
      (buildDataFrame [1, 2]).length = 3 := by decide


/-- C5: `verify_chip_signature` succeeds exactly when the resolved
profile has positive flash size and the image is strictly smaller; an
image exactly as large as the flash yields the ImageTooLarge verdict; and
in the session machine a non-ok verdict at the GET-ID block callback goes
straight to phase 99 without emitting any erase frame. -/
theorem c5_chip_verification_policy :
    (∀ signature bytes_total : Nat,
      ((verify_chip_signature signature bytes_total 0 0).2.2 = ChipVerdict.ok ↔
        0 < (verify_chip_signature signature bytes_total 0 0).1 ∧
          bytes_total < (verify_chip_signature signature bytes_total 0 0).1)
      ∧ (0 < (verify_chip_signature signature bytes_total 0 0).1 →
          bytes_total = (verify_chip_signature signature bytes_total 0 0).1 →
          (verify_chip_signature signature bytes_total 0 0).2.2 =
            ChipVerdict.imageTooLarge))
    ∧ (∀ (s : SessionState) (data : List Nat), s.pc = PC.p3_block →
        (verify_chip_signature ((data.getD 0 0) <<< 8 ||| data.getD 1 0)
            s.hex.bytes_total s.available_flash_size s.page_size).2.2 ≠
          ChipVerdict.ok →
        (upload_procedure_step s data).1.pc = PC.done ∧
          (upload_procedure_step s data).2 = []) := by
  constructor
  · intro sig bt
    have hval : verify_chip_signature sig bt 0 0 =
        (let g := (chipGeometry sig).getD (0, 0)
         if 0 < g.1 then
           if bt < g.1 then (g.1, g.2, ChipVerdict.ok)
           else (g.1, g.2, ChipVerdict.imageTooLarge)
         else (g.1, g.2, ChipVerdict.chipNotRecognized)) := rfl
    rw [hval]
    set g := (chipGeometry sig).getD (0, 0) with hg
    show _ ∧ _
    by_cases h1 : 0 < g.1
    · by_cases h2 : bt < g.1
      · simp only [if_pos h1, if_pos h2]
        exact ⟨by simp [h1, h2], fun _ hbt => by omega⟩
      · simp only [if_pos h1, if_neg h2]
        simp [h2]
    · simp only [if_neg h1]
      simp [h1]
  · intro s data hpc hv
    have hstep : upload_procedure_step s data =
        (let v := verify_chip_signature ((data.getD 0 0) <<< 8 ||| data.getD 1 0)
           s.hex.bytes_total s.available_flash_size s.page_size
         let s1 := { s with available_flash_size := v.1, page_size := v.2.1 }
         if v.2.2 == ChipVerdict.ok then
           if s1.useExtendedErase then
             ({ s1 with pc := PC.p4_cmd, bytesToRead := 1 }, [[0x44, 0xBB]])
           else
             ({ s1 with pc := PC.p4_cmd, bytesToRead := 1 }, [[0x43, 0xBC]])
         else
           ({ s1 with pc := PC.done, failure := some Failure.chipRejected }, [])) := by
      unfold upload_procedure_step
      rw [hpc]
    rw [hstep]
    show (if (verify_chip_signature ((data.getD 0 0) <<< 8 ||| data.getD 1 0)
           s.hex.bytes_total s.available_flash_size s.page_size).2.2 == ChipVerdict.ok
         then _ else _ : SessionState × List (List Int)).1.pc = PC.done ∧ _
    rw [if_neg (by simpa using hv)]
    exact ⟨rfl, rfl⟩

/-- C5 witness: an unknown signature (0x999) with an empty image aborts
at the GET-ID block callback without any erase frame. -/
theorem c5_witness :
    (upload_procedure_step
        { initState ⟨0, []⟩ false with pc := PC.p3_block } [0x09, 0x99, 0x79]).1.pc =
      PC.done ∧
      (upload_procedure_step
        { initState ⟨0, []⟩ false with pc := PC.p3_block } [0x09, 0x99, 0x79]).2 = [] :=
  c5_chip_verification_policy.2 _ [0x09, 0x99, 0x79] rfl (by decide)

/-- C7: in global-erase mode, after the acknowledged erase command frame
the extended dialect sends exactly `[0xFF, 0xFF, 0x00]` and the classic
dialect exactly `[0xFF, 0x00]`, each registering exactly one expected
response byte (the ACK) before the next transition. -/
theorem c7_global_erase_payload_frames :
    ∀ (s : SessionState) (data : List Nat),
      s.pc = PC.p4_cmd → data[0]? = some statusACK → s.erase_chip = true →
      ((s.useExtendedErase = true →
          (upload_procedure_step s data).2 = [[0xFF, 0xFF, 0x00]]) ∧
       (s.useExtendedErase = false →
          (upload_procedure_step s data).2 = [[0xFF, 0x00]]) ∧
       (upload_procedure_step s data).1.bytesToRead = 1 ∧
       (upload_procedure_step s data).1.pc = PC.p4_list) := by
  intro s data hpc hack hec
  have hstep : upload_procedure_step s data =
      (if data[0]? == some statusACK then
        if s.useExtendedErase then
          if s.erase_chip then
            ({ s with pc := PC.p4_list, bytesToRead := 1 }, [[0xFF, 0xFF, 0x00]])
          else
            ({ s with pc := PC.p4_list, bytesToRead := 1 },
              [extendedEraseFrame s.hex s.page_size])
        else
          if s.erase_chip then
            ({ s with pc := PC.p4_list, bytesToRead := 1 }, [[0xFF, 0x00]])
          else
            ({ s with pc := PC.p4_list, bytesToRead := 1 },
              [classicEraseFrame s.hex s.page_size])
      else failStep s) := by
    unfold upload_procedure_step
    rw [hpc]
  rw [hstep, if_pos (by simp [hack]), hec]
  cases hue : s.useExtendedErase <;> simp

/-- C7 witness: the two dialects at concrete states. -/
theorem c7_witness :
    (upload_procedure_step
        { initState ⟨0, []⟩ true with pc := PC.p4_cmd, useExtendedErase := true }
        [0x79]).2 = [[0xFF, 0xFF, 0x00]] ∧
    (upload_procedure_step
        { initState ⟨0, []⟩ true with pc := PC.p4_cmd }
        [0x79]).2 = [[0xFF, 0x00]] :=
  ⟨(c7_global_erase_payload_frames _ [0x79] rfl (by decide) rfl).1 rfl,
   (c7_global_erase_payload_frames _ [0x79] rfl (by decide) rfl).2.1 rfl⟩

/-- C10: in the GET and GET-ID exchanges the trailing ACK byte is read as
part of the retrieved block (`data[1] + 1 + 1` bytes are requested after
the leading ACK) but never influences control: the GET block callback
proceeds to GET ID for every block, appending a different final byte to a
GET block of length at least 8 (so the final byte is the trailing ACK
position, past `data[7]`) changes nothing, and the GET-ID block callback
behaves identically for any final byte appended after the two signature
bytes. -/
theorem c10_trailing_ack_never_checked :
    (∀ (s : SessionState) (data : List Nat), s.pc = PC.p2_ack →
      data[0]? = some statusACK →
      (upload_procedure_step s data).1.bytesToRead = data.getD 1 0 + 1 + 1 ∧
        (upload_procedure_step s data).1.pc = PC.p2_block) ∧
    (∀ (s : SessionState) (data : List Nat), s.pc = PC.p2_block →
      (upload_procedure_step s data).1.pc = PC.p3_ack) ∧
    (∀ (s : SessionState) (block : List Nat) (b b' : Nat), s.pc = PC.p2_block →
      8 ≤ block.length →
      upload_procedure_step s (block ++ [b]) =
        upload_procedure_step s (block ++ [b'])) ∧
    (∀ (s : SessionState) (data : List Nat), s.pc = PC.p3_ack →
      data[0]? = some statusACK →
      (upload_procedure_step s data).1.bytesToRead = data.getD 1 0 + 1 + 1 ∧
        (upload_procedure_step s data).1.pc = PC.p3_block) ∧
    (∀ (s : SessionState) (block : List Nat) (b b' : Nat), s.pc = PC.p3_block →
      2 ≤ block.length →
      upload_procedure_step s (block ++ [b]) =
        upload_procedure_step s (block ++ [b'])) := by
  refine ⟨?_, ?_, ?_, ?_, ?_⟩
  · intro s data hpc hack
    have hstep : upload_procedure_step s data =
        (if data[0]? == some statusACK then
          ({ s with pc := PC.p2_block, bytesToRead := data.getD 1 0 + 1 + 1 }, [])
        else failStep s) := by
      unfold upload_procedure_step
      rw [hpc]
    rw [hstep, if_pos (by simp [hack])]
    exact ⟨rfl, rfl⟩
  · intro s data hpc
    have hstep : upload_procedure_step s data =
        ({ s with
            useExtendedErase := data[7]? == some 0x44
            pc := PC.p3_ack
            bytesToRead := 2 }, [[0x02, 0xFD]]) := by
      unfold upload_procedure_step
      rw [hpc]
    rw [hstep]
  · intro s block b b' hpc hlen
    have h7 : ∀ c : Nat, (block ++ [c])[7]? = block[7]? := by
      intro c
      have h7lt : 7 < block.length := by omega
      rw [List.getElem?_append]
      simp [h7lt]
    have hstep : ∀ d : List Nat, upload_procedure_step s d =
        ({ s with
            useExtendedErase := d[7]? == some 0x44
            pc := PC.p3_ack
            bytesToRead := 2 }, [[0x02, 0xFD]]) := by
      intro d
      unfold upload_procedure_step
      rw [hpc]
    rw [hstep, hstep, h7 b, h7 b']
  · intro s data hpc hack
    have hstep : upload_procedure_step s data =
        (if data[0]? == some statusACK then
          ({ s with pc := PC.p3_block, bytesToRead := data.getD 1 0 + 1 + 1 }, [])
        else failStep s) := by
      unfold upload_procedure_step
      rw [hpc]
    rw [hstep, if_pos (by simp [hack])]
    exact ⟨rfl, rfl⟩
  · intro s block b b' hpc hlen
    have hget : ∀ (c : Nat) (i : Nat), i < 2 → (block ++ [c]).getD i 0 = block.getD i 0 := by
      intro c i hi
      have hilt : i < block.length := by omega
      rw [List.getD_eq_getElem?_getD, List.getD_eq_getElem?_getD, List.getElem?_append]
      simp [hilt]
    have hstep : ∀ d : List Nat, upload_procedure_step s d =
        (let v := verify_chip_signature ((d.getD 0 0) <<< 8 ||| d.getD 1 0)
           s.hex.bytes_total s.available_flash_size s.page_size
         let s1 := { s with available_flash_size := v.1, page_size := v.2.1 }
         if v.2.2 == ChipVerdict.ok then
           if s1.useExtendedErase then
             ({ s1 with pc := PC.p4_cmd, bytesToRead := 1 }, [[0x44, 0xBB]])
           else
             ({ s1 with pc := PC.p4_cmd, bytesToRead := 1 }, [[0x43, 0xBC]])
         else
           ({ s1 with pc := PC.done, failure := some Failure.chipRejected }, [])) := by
      intro d
      unfold upload_procedure_step
      rw [hpc]
    rw [hstep, hstep, hget b 0 (by norm_num), hget b' 0 (by norm_num),
      hget b 1 (by norm_num), hget b' 1 (by norm_num)]

/-- C10 witness: a GET block whose trailing byte is NACK still proceeds
to GET ID, and the GET-ID block callback is insensitive to the trailing
byte. -/
theorem c10_witness :
    (upload_procedure_step { initState ⟨0, []⟩ false with pc := PC.p2_block }
        [0x31, 0x00, 0x01, 0x02, 0x11, 0x21, 0x31, 0x43, 0x63, 0x73, 0x82, 0x92,
          0x1F]).1.pc = PC.p3_ack ∧
    upload_procedure_step { initState ⟨0, []⟩ false with pc := PC.p3_block }
        ([0x04, 0x10] ++ [0x79]) =
      upload_procedure_step { initState ⟨0, []⟩ false with pc := PC.p3_block }
        ([0x04, 0x10] ++ [0x1F]) :=
  ⟨c10_trailing_ack_never_checked.2.1 _ _ rfl,
   c10_trailing_ack_never_checked.2.2.2.2 _ [0x04, 0x10] 0x79 0x1F rfl (by decide)⟩

/-- C2 counterexample: with a silent device, after 4 unanswered 250 ms
ticks the session is still in phase 1 (it has not given up), and the run
that does give up has transmitted five 0x7F probes, not four: the tick
body sends its probe before evaluating `sendCounter++ > 3`. -/
theorem c2_counterexample :
    (phase1_ticks 4 (initState ⟨0, []⟩ false)).1.pc = PC.p1 ∧
    (phase1_ticks 5 (initState ⟨0, []⟩ false)).2 =
      [[0x7F], [0x7F], [0x7F], [0x7F], [0x7F]] ∧
    (phase1_ticks 5 (initState ⟨0, []⟩ false)).1.pc = PC.done ∧
    (phase1_ticks 5 (initState ⟨0, []⟩ false)).1.failure =
      some Failure.bootloaderUnresponsive := by decide

/-- C2 amended: from any freshly initialized session, a silent device
leaves phase 1 pending through the first four ticks; the fifth tick still
transmits its probe (five probes in total) and only then gives up,
transitioning to phase 99 with the bootloader-unresponsive error. -/
theorem c2_probe_count_and_give_up :
    ∀ (hex : Image) (erase_chip : Bool),
      (phase1_ticks 4 (initState hex erase_chip)).1.pc = PC.p1 ∧
      (phase1_ticks 5 (initState hex erase_chip)).2 =
        [[0x7F], [0x7F], [0x7F], [0x7F], [0x7F]] ∧
      (phase1_ticks 5 (initState hex erase_chip)).1.pc = PC.done ∧
      (phase1_ticks 5 (initState hex erase_chip)).1.failure =
        some Failure.bootloaderUnresponsive :=
  fun _ _ => ⟨rfl, rfl, rfl, rfl⟩

/-- C6 counterexample: the event sequence send, tick, tick terminates the
session through the watchdog, yet the two ticks observed the alive flag
as `[true, false]` — there are no two consecutive ticks that both
observed `false`, contradicting the claimed termination condition (and a
single tick observing `false` terminated the session by itself). -/
theorem c6_counterexample :
    (wdRun [WdEvent.send, WdEvent.tick, WdEvent.tick] ⟨false, false⟩).expired = true ∧
    wdObs [WdEvent.send, WdEvent.tick, WdEvent.tick] ⟨false, false⟩ = [true, false] ∧
    twoConsecutiveFalse
      (wdObs [WdEvent.send, WdEvent.tick, WdEvent.tick] ⟨false, false⟩) = false := by
  decide

/-- C6 amended: every send sets the alive flag; a tick that observes the
flag set clears it without terminating; and the watchdog forces phase 99
exactly at the first tick that observes the flag cleared — that is, after
two consecutive ticks with no intervening send (the first clears the
flag, the second finds it false). -/
theorem c6_watchdog_behaviour :
    ∀ s : WatchdogState,
      ((sendAlive s).upload_process_alive = true ∧ (sendAlive s).expired = s.expired) ∧
      (s.expired = false →
        (watchdog_tick s).expired = !s.upload_process_alive) ∧
      (s.expired = false → s.upload_process_alive = true →
        (watchdog_tick s).upload_process_alive = false ∧
          (watchdog_tick s).expired = false) := by
  intro s
  cases s with
  | mk a e =>
    revert a e
    decide

/-- C6 witness: the amended statement at the state with the flag set and
the watchdog armed. -/
theorem c6_witness :
    (watchdog_tick ⟨true, false⟩).upload_process_alive = false ∧
      (watchdog_tick ⟨true, false⟩).expired = false :=
  (c6_watchdog_behaviour ⟨true, false⟩).2.2 rfl rfl

/-- Lemma: `finalVerify` never touches `useExtendedErase` and stays past GET. -/
theorem finalVerify_inv (s : SessionState) :
    (finalVerify s).1.useExtendedErase = s.useExtendedErase ∧
      3 ≤ pcRank (finalVerify s).1.pc := by
  unfold finalVerify
  dsimp only
  split
  · exact ⟨rfl, Nat.le_refl 3⟩
  · exact ⟨rfl, Nat.le_refl 3⟩

/-- Lemma: `readLoop` never touches `useExtendedErase` and never moves the
program counter back before GET ID. -/
theorem readLoop_inv : ∀ (fuel : Nat) (s : SessionState),
    (readLoop fuel s).1.useExtendedErase = s.useExtendedErase ∧
      (3 ≤ pcRank s.pc → 3 ≤ pcRank (readLoop fuel s).1.pc) := by
  intro fuel
  induction fuel with
  | zero => exact fun s => ⟨rfl, fun h => h⟩
  | succ n ih =>
    intro s
    rw [readLoop]
    cases hget : s.hex.data[s.readingBlock]? with
    | none => exact ⟨(finalVerify_inv s).1, fun _ => (finalVerify_inv s).2⟩
    | some seg =>
      dsimp only
      split
      · exact ⟨rfl, fun _ => Nat.le_refl 3⟩
      · split
        · exact ⟨(ih _).1, fun h => (ih _).2 h⟩
        · exact ⟨(finalVerify_inv s).1, fun _ => (finalVerify_inv s).2⟩

/-- Lemma: `phase6Entry` never touches `useExtendedErase` and never moves the
program counter back before GET ID. -/
theorem phase6Entry_inv (s : SessionState) :
    (phase6Entry s).1.useExtendedErase = s.useExtendedErase ∧
      (3 ≤ pcRank s.pc → 3 ≤ pcRank (phase6Entry s).1.pc) :=
  readLoop_inv _ _

/-- Lemma: `writeLoop` never touches `useExtendedErase` and never moves the
program counter back before GET ID. -/
theorem writeLoop_inv : ∀ (fuel : Nat) (s : SessionState),
    (writeLoop fuel s).1.useExtendedErase = s.useExtendedErase ∧
      (3 ≤ pcRank s.pc → 3 ≤ pcRank (writeLoop fuel s).1.pc) := by
  intro fuel
  induction fuel with
  | zero => exact fun s => ⟨rfl, fun h => h⟩
  | succ n ih =>
    intro s
    rw [writeLoop]
    cases hget : s.hex.data[s.flashing_block]? with
    | none => exact ⟨(phase6Entry_inv s).1, fun h => (phase6Entry_inv s).2 h⟩
    | some seg =>
      dsimp only
      split
      · exact ⟨rfl, fun _ => Nat.le_refl 3⟩
      · split
        · exact ⟨(ih _).1, fun h => (ih _).2 h⟩
        · exact ⟨(phase6Entry_inv s).1, fun h => (phase6Entry_inv s).2 h⟩

/-- Lemma: `phase5Entry` never touches `useExtendedErase` and never moves the
program counter back before GET ID. -/
theorem phase5Entry_inv (s : SessionState) :
    (phase5Entry s).1.useExtendedErase = s.useExtendedErase ∧
      (3 ≤ pcRank s.pc → 3 ≤ pcRank (phase5Entry s).1.pc) :=
  writeLoop_inv _ _

/-- C1: the GET block callback is the unique writer of
`useExtendedErase`: it sets the flag to true exactly when byte 7 of the
retrieved block is 0x44 and moves past the GET exchange; every step taken
from GET ID onwards (rank ≥ 3) preserves the flag and stays at rank ≥ 3,
so the flag is never changed again for the rest of the session; auto-baud
ticks do not touch it either. -/
theorem c1_use_extended_erase_set_once :
    (∀ (s : SessionState) (data : List Nat), s.pc = PC.p2_block →
      (upload_procedure_step s data).1.useExtendedErase =
          (data[7]? == some 0x44) ∧
        3 ≤ pcRank (upload_procedure_step s data).1.pc) ∧
    (∀ (s : SessionState) (data : List Nat), 3 ≤ pcRank s.pc →
      (upload_procedure_step s data).1.useExtendedErase = s.useExtendedErase ∧
        3 ≤ pcRank (upload_procedure_step s data).1.pc) ∧
    (∀ s : SessionState,
      (phase1_tick s).1.useExtendedErase = s.useExtendedErase) := by
  refine ⟨?_, ?_, ?_⟩
  · intro s data hpc
    have hstep : upload_procedure_step s data =
        ({ s with
            useExtendedErase := data[7]? == some 0x44
            pc := PC.p3_ack
            bytesToRead := 2 }, [[0x02, 0xFD]]) := by
      unfold upload_procedure_step
      rw [hpc]
    rw [hstep]
    exact ⟨rfl, Nat.le_refl 3⟩
  · intro s data h
    obtain ⟨pc, sc, ue, af, ps, hx, ec, btr, vh, fb, bf, ad, rb, bv, cs, fl⟩ := s
    cases pc with
    | p1 => exact absurd h (of_decide_eq_false rfl)
    | p2_ack => exact absurd h (of_decide_eq_false rfl)
    | p2_block => exact absurd h (of_decide_eq_false rfl)
    | p3_ack =>
      dsimp only [upload_procedure_step]
      split
      · exact ⟨rfl, Nat.le_refl 3⟩
      · exact ⟨rfl, Nat.le_refl 3⟩
    | p3_block =>
      dsimp only [upload_procedure_step]
      split
      · split
        · exact ⟨rfl, Nat.le_refl 3⟩
        · exact ⟨rfl, Nat.le_refl 3⟩
      · exact ⟨rfl, Nat.le_refl 3⟩
    | p4_cmd =>
      dsimp only [upload_procedure_step]
      split
      · split
        · split
          · exact ⟨rfl, Nat.le_refl 3⟩
          · exact ⟨rfl, Nat.le_refl 3⟩
        · split
          · exact ⟨rfl, Nat.le_refl 3⟩
          · exact ⟨rfl, Nat.le_refl 3⟩
      · exact ⟨rfl, Nat.le_refl 3⟩
    | p4_list =>
      dsimp only [upload_procedure_step]
      split
      · exact ⟨(phase5Entry_inv _).1, (phase5Entry_inv _).2 (Nat.le_refl 3)⟩
      · exact ⟨rfl, Nat.le_refl 3⟩
    | p5_cmd =>
      dsimp only [upload_procedure_step]
      split
      · exact ⟨rfl, Nat.le_refl 3⟩
      · exact ⟨rfl, Nat.le_refl 3⟩
    | p5_addr =>
      dsimp only [upload_procedure_step]
      split
      · exact ⟨rfl, Nat.le_refl 3⟩
      · exact ⟨rfl, Nat.le_refl 3⟩
    | p5_data =>
      dsimp only [upload_procedure_step]
      split
      · exact ⟨(writeLoop_inv _ _).1, (writeLoop_inv _ _).2 (Nat.le_refl 3)⟩
      · exact ⟨rfl, Nat.le_refl 3⟩
    | p6_cmd =>
      dsimp only [upload_procedure_step]
      split
      · exact ⟨rfl, Nat.le_refl 3⟩
      · exact ⟨rfl, Nat.le_refl 3⟩
    | p6_addr =>
      dsimp only [upload_procedure_step]
      split
      · exact ⟨rfl, Nat.le_refl 3⟩
      · exact ⟨rfl, Nat.le_refl 3⟩
    | p6_count =>
      dsimp only [upload_procedure_step]
      split
      · exact ⟨rfl, Nat.le_refl 3⟩
      · exact ⟨rfl, Nat.le_refl 3⟩
    | p6_data =>
      dsimp only [upload_procedure_step]
      exact ⟨(readLoop_inv _ _).1, (readLoop_inv _ _).2 (Nat.le_refl 3)⟩
    | p7_cmd =>
      dsimp only [upload_procedure_step]
      split
      · exact ⟨rfl, Nat.le_refl 3⟩
      · exact ⟨rfl, Nat.le_refl 3⟩
    | p7_addr =>
      dsimp only [upload_procedure_step]
      split
      · exact ⟨rfl, Nat.le_refl 3⟩
      · exact ⟨rfl, Nat.le_refl 3⟩
    | done =>
      exact ⟨rfl, Nat.le_refl 3⟩
  · intro s
    unfold phase1_tick
    split
    · split
      · rfl
      · rfl
    · rfl

/-- C1 witness: at a concrete GET block the flag comes out true and the
session is past the GET exchange. -/
theorem c1_witness :
    (upload_procedure_step { initState ⟨0, []⟩ false with pc := PC.p2_block }
        [0x31, 0x00, 0x01, 0x02, 0x11, 0x21, 0x31, 0x44, 0x63, 0x73, 0x82, 0x92,
          0x79]).1.useExtendedErase =
      ([0x31, 0x00, 0x01, 0x02, 0x11, 0x21, 0x31, 0x44, 0x63, 0x73, 0x82, 0x92,
          0x79][7]? == some 0x44) ∧
      3 ≤ pcRank (upload_procedure_step
        { initState ⟨0, []⟩ false with pc := PC.p2_block }
        [0x31, 0x00, 0x01, 0x02, 0x11, 0x21, 0x31, 0x44, 0x63, 0x73, 0x82, 0x92,
          0x79]).1.pc :=
  c1_use_extended_erase_set_once.1 _ _ rfl

/-- Xor commutes with truncation to the low bits. -/
theorem natXor_mod_two_pow (k u v : Nat) :
    (u ^^^ v) % 2 ^ k = (u % 2 ^ k) ^^^ (v % 2 ^ k) := by
  apply Nat.eq_of_testBit_eq
  intro i
  rcases Nat.lt_or_ge i k with hi | hi
  · simp only [Nat.testBit_mod_two_pow, Nat.testBit_xor]
    simp [hi]
  · simp only [Nat.testBit_mod_two_pow, Nat.testBit_xor]
    simp [Nat.not_lt.mpr hi]

/-- Xor commutes with truncation to the low byte. -/
theorem natXor_emod_256 (u v : Nat) : (u ^^^ v) % 256 = (u % 256) ^^^ (v % 256) := by
  have h := natXor_mod_two_pow 8 u v
  norm_num at h
  exact h

/-- The low byte of a JavaScript 32-bit xor is the xor of the low bytes
of the operands. -/
theorem jsXor_emod256 (x y : Int) :
    ((jsXor x y) % 256).toNat = ((x % 256).toNat) ^^^ ((y % 256).toNat) := by
  have hx : (x % 256).toNat = (x % 4294967296).toNat % 256 := by
    have h1 : x % 4294967296 % 256 = x % 256 := Int.emod_emod_of_dvd x (by norm_num)
    omega
  have hy : (y % 256).toNat = (y % 4294967296).toNat % 256 := by
    have h1 : y % 4294967296 % 256 = y % 256 := Int.emod_emod_of_dvd y (by norm_num)
    omega
  rw [hx, hy, ← natXor_emod_256]
  unfold jsXor toInt32 toUint32
  have hmlt : (x % 4294967296).toNat ^^^ (y % 4294967296).toNat < 4294967296 := by
    have h32 : (4294967296 : Nat) = 2 ^ 32 := by norm_num
    rw [h32]
    exact Nat.xor_lt_two_pow (by omega) (by omega)
  have hself : ((((x % 4294967296).toNat ^^^ (y % 4294967296).toNat : Nat) : Int)) %
      4294967296 =
      (((x % 4294967296).toNat ^^^ (y % 4294967296).toNat : Nat) : Int) :=
    Int.emod_eq_of_lt (Int.natCast_nonneg _) (by exact_mod_cast hmlt)
  dsimp only
  rw [hself]
  split <;> omega

/-- Low byte of `A >> 24` for a 32-bit `A`. -/
theorem jsShr24_emod256 (A : Nat) (h : A < 4294967296) :
    ((jsShr (A : Int) 24) % 256).toNat = A / 16777216 % 256 := by
  unfold jsShr toInt32
  have h24 : ((2 : Int) ^ 24) = 16777216 := by norm_num
  rw [h24]
  dsimp only
  split <;> omega

/-- Low byte of `A >> 16` for a 32-bit `A`. -/
theorem jsShr16_emod256 (A : Nat) (h : A < 4294967296) :
    ((jsShr (A : Int) 16) % 256).toNat = A / 65536 % 256 := by
  unfold jsShr toInt32
  have h16 : ((2 : Int) ^ 16) = 65536 := by norm_num
  rw [h16]
  dsimp only
  split <;> omega

/-- Low byte of `A >> 8` for a 32-bit `A`. -/
theorem jsShr8_emod256 (A : Nat) (h : A < 4294967296) :
    ((jsShr (A : Int) 8) % 256).toNat = A / 256 % 256 := by
  unfold jsShr toInt32
  have h8 : ((2 : Int) ^ 8) = 256 := by norm_num
  rw [h8]
  dsimp only
  split <;> omega

/-- C8: for every 32-bit address, the five bytes `send` actually places
on the wire for an address frame are the four big-endian bytes of the
address followed by the xor of those four transmitted bytes — the
`Uint8Array` store truncates each unmasked shift result to its low 8
bits, which makes the on-wire frame correct. -/
theorem c8_address_frame_on_wire :
    ∀ A : Nat, A < 4294967296 →
      transmit (addressFrame (A : Int)) =
        [A / 16777216 % 256, A / 65536 % 256, A / 256 % 256, A % 256,
          (((A / 16777216 % 256) ^^^ (A / 65536 % 256)) ^^^ (A / 256 % 256)) ^^^
            (A % 256)] := by
  intro A hA
  have h0 := jsShr24_emod256 A hA
  have h1 := jsShr16_emod256 A hA
  have h2 := jsShr8_emod256 A hA
  have h3 : (((A : Int)) % 256).toNat = A % 256 := by omega
  have hchk : ((jsXor (jsXor (jsXor (jsShr (A : Int) 24) (jsShr (A : Int) 16))
        (jsShr (A : Int) 8)) (A : Int)) % 256).toNat =
      (((A / 16777216 % 256) ^^^ (A / 65536 % 256)) ^^^ (A / 256 % 256)) ^^^
        (A % 256) := by
    rw [jsXor_emod256, jsXor_emod256, jsXor_emod256, h0, h1, h2, h3]
  unfold transmit addressFrame
  dsimp only
  simp only [List.map]
  rw [h0, h1, h2, h3, hchk]

/-- C8 witness: the frame for address 0x90000001, whose shifts produce
negative int32 values, still transmits the correct big-endian bytes. -/
theorem c8_witness :
    transmit (addressFrame ((2415919105 : Nat) : Int)) = [144, 0, 0, 1, 145] := by
  have h := c8_address_frame_on_wire 2415919105 (by norm_num)
  simpa using h

/-- Flooring negated division computes the ceiling: `Math.ceil(M / P)` on
naturals is `(M + P - 1) / P`. -/
theorem jsCeilDiv_natCast (M P : Nat) (hP : 1 ≤ P) :
    jsCeilDiv (M : Int) (P : Int) = (((M + P - 1) / P : Nat) : Int) := by
  have hqr := Nat.div_add_mod (M + P - 1) P
  have hr : (M + P - 1) % P < P := Nat.mod_lt _ hP
  have hcast : ((P : Int)) * (((M + P - 1) / P : Nat) : Int) +
      (((M + P - 1) % P : Nat) : Int) = (M : Int) + P - 1 := by
    have h2 : ((M + P - 1 : Nat) : Int) = (M : Int) + P - 1 := by omega
    calc ((P : Int)) * (((M + P - 1) / P : Nat) : Int) +
          (((M + P - 1) % P : Nat) : Int) =
        ((P * ((M + P - 1) / P) + (M + P - 1) % P : Nat) : Int) := by push_cast; ring
      _ = ((M + P - 1 : Nat) : Int) := by rw [hqr]
      _ = (M : Int) + P - 1 := h2
  have h1 : -(M : Int) = ((P - 1 - (M + P - 1) % P : Nat) : Int) +
      (-((((M + P - 1) / P : Nat)) : Int)) * P := by
    have h3 : ((P - 1 - (M + P - 1) % P : Nat) : Int) =
        (P : Int) - 1 - (((M + P - 1) % P : Nat) : Int) := by omega
    rw [h3]
    linear_combination hcast
  unfold jsCeilDiv
  rw [h1, Int.add_mul_ediv_right _ _ (by omega : (P : Int) ≠ 0),
    Int.ediv_eq_zero_of_lt (by omega) (by omega)]
  omega

/-- Shift `i >> 8` on a small natural is plain division by 256. -/
theorem jsShr8_nat (m : Nat) (h : m < 2147483648) :
    jsShr (m : Int) 8 = ((m / 256 : Nat) : Int) := by
  unfold jsShr toInt32
  have h8 : ((2 : Int) ^ 8) = 256 := by norm_num
  rw [h8]
  dsimp only
  rw [if_pos (by omega)]
  omega

/-- Mask `i & 0xFF` on a natural is plain remainder by 256. -/
theorem jsAnd255_nat (m : Nat) : jsAnd255 (m : Int) = ((m % 256 : Nat) : Int) := by
  unfold jsAnd255
  omega

/-- JavaScript xor restricted to small naturals is `Nat.xor`. -/
theorem jsXor_nat (a b : Nat) (ha : a < 2147483648) (hb : b < 2147483648) :
    jsXor (a : Int) (b : Int) = ((a ^^^ b : Nat) : Int) := by
  unfold jsXor toUint32 toInt32
  have hua : (((a : Int)) % 4294967296).toNat = a := by omega
  have hub : (((b : Int)) % 4294967296).toNat = b := by omega
  rw [hua, hub]
  have hx : a ^^^ b < 2147483648 := by
    have h31 : (2147483648 : Nat) = 2 ^ 31 := by norm_num
    rw [h31] at ha hb ⊢
    exact Nat.xor_lt_two_pow ha hb
  dsimp only
  rw [Int.emod_eq_of_lt (Int.natCast_nonneg _)
    (by exact_mod_cast (by omega : a ^^^ b < 4294967296))]
  rw [if_pos (by exact_mod_cast hx)]

/-- Folding JavaScript xor over casts of small naturals is the cast of
the `Nat.xor` fold. -/
theorem foldl_jsXor_natCast : ∀ (l : List Nat) (init : Nat),
    (∀ x ∈ l, x < 256) → init < 2147483648 →
    (l.map (fun (b : Nat) => (b : Int))).foldl jsXor (init : Int) =
      ((l.foldl Nat.xor init : Nat) : Int) := by
  intro l
  induction l with
  | nil => intro init _ _; rfl
  | cons a t ih =>
    intro init hmem hinit
    have ha : a < 256 := hmem a (List.mem_cons_self a t)
    simp only [List.map, List.foldl]
    rw [jsXor_nat init a hinit (by omega)]
    exact ih (init ^^^ a)
      (fun x hx => hmem x (List.mem_cons_of_mem a hx))
      (by
        have h31 : (2147483648 : Nat) = 2 ^ 31 := by norm_num
        rw [h31]
        exact Nat.xor_lt_two_pow (by omega) (by omega))

/-- Folding `Nat.xor` over bytes stays below 256. -/
theorem foldl_xor_lt_256 : ∀ (l : List Nat) (init : Nat),
    (∀ x ∈ l, x < 256) → init < 256 → l.foldl Nat.xor init < 256 := by
  intro l
  induction l with
  | nil => intro init _ h; exact h
  | cons a t ih =>
    intro init hmem hinit
    have ha : a < 256 := hmem a (List.mem_cons_self a t)
    simp only [List.foldl]
    exact ih (init ^^^ a) (fun x hx => hmem x (List.mem_cons_of_mem a hx))
      (by
        have h8 : (256 : Nat) = 2 ^ 8 := by norm_num
        rw [h8] at ha hinit ⊢
        exact Nat.xor_lt_two_pow hinit ha)

/-- Transmitting casts of bytes is the identity. -/
theorem transmit_natCast : ∀ l : List Nat, (∀ x ∈ l, x < 256) →
    transmit (l.map (fun (b : Nat) => (b : Int))) = l := by
  intro l
  induction l with
  | nil => intro _; rfl
  | cons a t ih =>
    intro hmem
    have ha : a < 256 := hmem a (List.mem_cons_self a t)
    have htail := ih (fun x hx => hmem x (List.mem_cons_of_mem a hx))
    show ((((a : Int)) % 256).toNat) :: transmit (t.map (fun (b : Nat) => (b : Int))) = a :: t
    rw [htail]
    congr 1
    omega

/-- Pointwise-equal functions give equal flatMaps. -/
theorem flatMap_congr_mem : ∀ {α β : Type} (l : List α) (f g : α → List β),
    (∀ a ∈ l, f a = g a) → l.flatMap f = l.flatMap g := by
  intro α β l f g
  induction l with
  | nil => intro _; rfl
  | cons a t ih =>
    intro h
    simp only [List.flatMap_cons]
    rw [h a (List.mem_cons_self a t), ih (fun x hx => h x (List.mem_cons_of_mem a hx))]

/-- The number of partial-erase pages, on an image whose last segment is
`⟨A, B, d⟩`, is the ceiling `(A + B - 0x8000000 + P - 1) / P`. -/
theorem erasePagesOf_eq (segs : List Segment) (A B : Nat) (d : List Nat)
    (bt P : Nat) (hP : 1 ≤ P) (hAB : 0x8000000 ≤ A + B) :
    erasePagesOf ⟨bt, segs ++ [⟨A, B, d⟩]⟩ P =
      (((A + B - 0x8000000 + P - 1) / P : Nat) : Int) := by
  unfold erasePagesOf
  have hlen : (Image.data ⟨bt, segs ++ [⟨A, B, d⟩]⟩).length - 1 = segs.length := by
    simp
  rw [hlen]
  have hgetD : (Image.data ⟨bt, segs ++ [⟨A, B, d⟩]⟩).getD segs.length ⟨0, 0, []⟩ =
      ⟨A, B, d⟩ := by
    rw [List.getD_eq_getElem?_getD]
    show ((segs ++ [(⟨A, B, d⟩ : Segment)])[segs.length]?).getD _ = _
    rw [List.getElem?_concat_length]
    rfl
  rw [hgetD]
  have hmax : ((A : Int)) + ((B : Int)) - 0x8000000 =
      ((A + B - 0x8000000 : Nat) : Int) := by omega
  show jsCeilDiv ((A : Int) + (B : Int) - 0x8000000) (P : Int) = _
  rw [hmax, jsCeilDiv_natCast _ _ hP]

/-- Every byte of the extended-erase body is below 256 when the page
count fits in two bytes. -/
theorem specExtBody_bytes (N : Nat) (hN : N ≤ 65536) :
    ∀ x ∈ specExtBody N, x < 256 := by
  intro x hx
  unfold specExtBody at hx
  rcases List.mem_append.mp hx with h | h
  · simp only [List.mem_cons, List.mem_singleton] at h
    rcases h with h | h | h
    · omega
    · omega
    · exact absurd h (List.not_mem_nil x)
  · obtain ⟨i, hi, hmem⟩ := List.mem_flatMap.mp h
    have hiN : i < N := List.mem_range.mp hi
    simp only [List.mem_cons, List.mem_singleton] at hmem
    rcases hmem with h | h | h
    · omega
    · omega
    · exact absurd h (List.not_mem_nil x)

/-- Every byte of the classic-erase body is below 256 when the page
count fits in one byte. -/
theorem specClassicBody_bytes (N : Nat) (hN : N ≤ 256) :
    ∀ x ∈ specClassicBody N, x < 256 := by
  intro x hx
  unfold specClassicBody at hx
  rcases List.mem_cons.mp hx with h | h
  · omega
  · have := List.mem_range.mp h
    omega

/-- The transmitted extended-erase list frame, when the page count fits
in two bytes, is exactly the spec's frame shape. -/
theorem extendedEraseFrame_transmit (hex : Image) (P N : Nat)
    (hpages : erasePagesOf hex P = (N : Int)) (hN1 : 1 ≤ N) (hN : N ≤ 65536) :
    transmit (extendedEraseFrame hex P) = specExtendedListFrame N := by
  have hbound := specExtBody_bytes N hN
  have hsub : ((N : Int)) - 1 = ((N - 1 : Nat) : Int) := by omega
  have htoNat : ((N : Int)).toNat = N := by omega
  unfold extendedEraseFrame
  rw [hpages]
  dsimp only
  rw [hsub, htoNat, jsShr8_nat (N - 1) (by omega), jsAnd255_nat (N - 1)]
  have hflat : (List.range N).flatMap (fun i => [jsShr (i : Int) 8, jsAnd255 (i : Int)]) =
      ((List.range N).flatMap (fun i => [i / 256, i % 256])).map (fun (b : Nat) => (b : Int)) := by
    rw [List.map_flatMap]
    apply flatMap_congr_mem
    intro i hi
    have hiN : i < N := List.mem_range.mp hi
    rw [jsShr8_nat i (by omega), jsAnd255_nat i]
    rfl
  rw [hflat]
  have hco : [(((N - 1) / 256 : Nat) : Int), (((N - 1) % 256 : Nat) : Int)] ++
      ((List.range N).flatMap (fun i => [i / 256, i % 256])).map (fun (b : Nat) => (b : Int)) =
      (specExtBody N).map (fun (b : Nat) => (b : Int)) := rfl
  rw [hco]
  have hfold : ((specExtBody N).map (fun (b : Nat) => (b : Int))).foldl jsXor 0 =
      (((specExtBody N).foldl Nat.xor 0 : Nat) : Int) := by
    have h := foldl_jsXor_natCast (specExtBody N) 0 hbound (by norm_num)
    simpa using h
  rw [hfold]
  have happ : (specExtBody N).map (fun (b : Nat) => (b : Int)) ++
      [(((specExtBody N).foldl Nat.xor 0 : Nat) : Int)] =
      ((specExtBody N) ++ [(specExtBody N).foldl Nat.xor 0]).map
        (fun (b : Nat) => (b : Int)) := by
    rw [List.map_append]
    exact rfl
  rw [happ, transmit_natCast]
  · rfl
  · intro x hx
    rcases List.mem_append.mp hx with h | h
    · exact hbound x h
    · rcases List.mem_singleton.mp h with rfl
      exact foldl_xor_lt_256 _ 0 hbound (by norm_num)

/-- The transmitted classic-erase list frame, when the page count fits in
one byte, is exactly the spec's frame shape. -/
theorem classicEraseFrame_transmit (hex : Image) (P N : Nat)
    (hpages : erasePagesOf hex P = (N : Int)) (hN1 : 1 ≤ N) (hN : N ≤ 256) :
    transmit (classicEraseFrame hex P) = specClassicListFrame N := by
  have hbound := specClassicBody_bytes N hN
  have hsub : ((N : Int)) - 1 = ((N - 1 : Nat) : Int) := by omega
  have htoNat : ((N : Int)).toNat = N := by omega
  unfold classicEraseFrame
  rw [hpages]
  dsimp only
  rw [hsub, htoNat]
  have hcons : (((N - 1 : Nat) : Int)) :: (List.range N).map (fun (i : Nat) => (i : Int)) =
      (specClassicBody N).map (fun (b : Nat) => (b : Int)) := rfl
  have hfold : ((List.range N).map (fun (i : Nat) => (i : Int))).foldl jsXor
      (((N - 1 : Nat) : Int)) = (((specClassicBody N).foldl Nat.xor 0 : Nat) : Int) := by
    have h := foldl_jsXor_natCast (List.range N) (N - 1)
      (fun x hx => by have := List.mem_range.mp hx; omega) (by omega)
    rw [h]
    have hz : (specClassicBody N).foldl Nat.xor 0 =
        (List.range N).foldl Nat.xor (N - 1) := by
      unfold specClassicBody
      simp only [List.foldl]
      have hzx : Nat.xor 0 (N - 1) = N - 1 := Nat.zero_xor (N - 1)
      rw [hzx]
    rw [hz]
  rw [hcons, hfold]
  have happ : (specClassicBody N).map (fun (b : Nat) => (b : Int)) ++
      [(((specClassicBody N).foldl Nat.xor 0 : Nat) : Int)] =
      ((specClassicBody N) ++ [(specClassicBody N).foldl Nat.xor 0]).map
        (fun (b : Nat) => (b : Int)) := by
    rw [List.map_append]
    exact rfl
  rw [happ, transmit_natCast]
  · rfl
  · intro x hx
    rcases List.mem_append.mp hx with h | h
    · exact hbound x h
    · rcases List.mem_singleton.mp h with rfl
      exact foldl_xor_lt_256 _ 0 hbound (by norm_num)

/-- C3: for an image whose last segment is `⟨A, B, d⟩` and any positive
page size, the partial-erase path computes
`pages = ceil((A + B - 0x8000000) / P)` (equal to the natural-number
ceiling `(A + B - 0x8000000 + P - 1) / P`), and — whenever the count is
representable in the dialect's header width, which the claim's byte
phrasing presupposes — the transmitted list frame is the dialect's spec
shape: header bytes of `pages - 1`, the page indices 0 … pages-1 in
ascending order, and a final checksum byte equal to the xor of every
preceding byte of the frame. -/
theorem c3_partial_erase_page_list :
    ∀ (segs : List Segment) (A B : Nat) (d : List Nat) (bt P : Nat),
      1 ≤ P → 0x8000000 < A + B →
      (erasePagesOf ⟨bt, segs ++ [⟨A, B, d⟩]⟩ P =
        (((A + B - 0x8000000 + P - 1) / P : Nat) : Int)) ∧
      ((A + B - 0x8000000 + P - 1) / P ≤ 65536 →
        transmit (extendedEraseFrame ⟨bt, segs ++ [⟨A, B, d⟩]⟩ P) =
          specExtendedListFrame ((A + B - 0x8000000 + P - 1) / P)) ∧
      ((A + B - 0x8000000 + P - 1) / P ≤ 256 →
        transmit (classicEraseFrame ⟨bt, segs ++ [⟨A, B, d⟩]⟩ P) =
          specClassicListFrame ((A + B - 0x8000000 + P - 1) / P)) := by
  intro segs A B d bt P hP hAB
  have hpages := erasePagesOf_eq segs A B d bt P hP (Nat.le_of_lt hAB)
  have hN1 : 1 ≤ (A + B - 0x8000000 + P - 1) / P := by
    rw [Nat.one_le_div_iff hP]
    omega
  exact ⟨hpages, fun h => extendedEraseFrame_transmit _ _ _ hpages hN1 h,
    fun h => classicEraseFrame_transmit _ _ _ hpages hN1 h⟩

/-- C3 witness: a 2100-byte image at the start of flash with 1024-byte
pages needs 3 pages, and both dialects transmit the spec's frames. -/
theorem c3_witness :
    erasePagesOf ⟨0, [⟨0x8000000, 2100, []⟩]⟩ 1024 = (3 : Int) ∧
    transmit (extendedEraseFrame ⟨0, [⟨0x8000000, 2100, []⟩]⟩ 1024) =
      specExtendedListFrame 3 ∧
    transmit (classicEraseFrame ⟨0, [⟨0x8000000, 2100, []⟩]⟩ 1024) =
      specClassicListFrame 3 := by
  have h := c3_partial_erase_page_list [] 0x8000000 2100 [] 0 1024
    (by norm_num) (by norm_num)
  exact ⟨h.1, h.2.1 (by norm_num), h.2.2 (by norm_num)⟩
